import Mathlib

/-
Verification development for the sen2mosaic compositing engine.

The definitions below are shallow embeddings of the Python source:
 * `updateMaskArrays`, `runMaskAux`, `provenancePrefix`  ~ mosaic.py `_updateMaskArrays` /
   `generateSCLArray` (the per-scene provenance update and its loop over scenes);
 * `updateBandArray`, `imageOrder`, `generateBandArrayNone` ~ mosaic.py `_updateBandArray` /
   `generateBandArray` with colour balancing disabled (the lexsort permutation of
   `_getImageOrder` is abstracted as an arbitrary list of scene indices `perm`,
   since its sort keys are floating-point CRS distances; only the facts that the
   code guarantees — the filter `tile_count > 0` and which indices appear — are used);
 * `colourBalanceStep` ~ the colour-balancing block of mosaic.py `generateBandArray`
   (lines 389-427); the `overlap > 0.5` histogram-matching branch delegates to a
   function parameter `hm`, theorems quantify over it;
 * `histogram_match` ~ utilities.py `histogram_match` on unmasked inputs, with exact
   rationals in place of floats;
 * `improveMask` ~ utilities.py `improveMask`, with scipy's default cross-shaped
   (4-connected) structuring element and zero border value for binary dilation/erosion;
 * `getSourceFilesInTileRun`, `sortScenes` ~ utilities.py `getSourceFilesInTile` /
   `sortScenes`; the per-scene CRS transformation is a function field of the scene,
   and the in-place mutation of `md_source.ulx/uly/lrx/lry` performed by
   `testOutsideTile` is modelled by returning the post-call scene states.

Pixel rasters are total functions from `Fin w` (flattened pixel index) to `ℕ`
(classification codes and band values are unsigned integers in the source).
-/

namespace Sen2

abbrev PixArr (w : ℕ) := Fin w → ℕ

/-- Classification codes 4, 5, 6 are the usable ("good") classes
(`np.logical_and(scl_resampled >= 4, scl_resampled <= 6)` in `_updateMaskArrays`). -/
def goodCode (v : ℕ) : Prop := 4 ≤ v ∧ v ≤ 6

instance (v : ℕ) : Decidable (goodCode v) := by unfold goodCode; infer_instance

/-- The three compositing algorithms accepted by `_updateMaskArrays`. -/
inductive Algorithm
  | MOST_RECENT
  | MOST_DISTANT
  | TEMP_HOMOGENEITY
deriving DecidableEq

/-- Number of good pixels of the current scene: `np.sum(good_px)`. -/
def countGood {w : ℕ} (sr : PixArr w) : ℕ :=
  (Finset.univ.filter (fun i => goodCode (sr i))).card

/-- Pixels already assigned to some scene and covered (nonzero code) by the current
scene: `np.logical_and(image_n > 0, scl_resampled != 0)`. -/
def assignedSet {w : ℕ} (im sr : PixArr w) : Finset (Fin w) :=
  Finset.univ.filter (fun i => 0 < im i ∧ sr i ≠ 0)

/-- Largest per-scene pixel count among `assignedSet`
(`np.unique(..., return_counts = True)` followed by `counts.max()`). -/
def maxAssignedCount {w : ℕ} (im sr : PixArr w) : ℕ :=
  ((assignedSet im sr).image im).sup
    (fun m => ((assignedSet im sr).filter (fun i => im i = m)).card)

/-- The per-pixel selection computed by `_updateMaskArrays` for each algorithm.
For `TEMP_HOMOGENEITY`, the re-selection test only fires when `counts.size != 0`,
i.e. when `assignedSet` is nonempty. -/
def selectionMask {w : ℕ} (alg : Algorithm) (scl_out sr im : PixArr w) : Fin w → Bool :=
  match alg with
  | .MOST_RECENT => fun i => decide (goodCode (sr i))
  | .MOST_DISTANT => fun i => decide ((scl_out i < 4 ∨ 6 < scl_out i) ∧ goodCode (sr i))
  | .TEMP_HOMOGENEITY => fun i =>
      decide (goodCode (sr i) ∧ im i = 0) ||
        (decide ((assignedSet im sr).Nonempty ∧ maxAssignedCount im sr < countGood sr) &&
          decide (goodCode (sr i)))

/-- mosaic.py `_updateMaskArrays`: write the selected pixels of `sr` into `scl_out`,
record the scene number `n` in `image_n` there, then zero `image_n` wherever the
resulting mask code is not good. -/
def updateMaskArrays {w : ℕ} (alg : Algorithm) (n : ℕ) (scl_out sr im : PixArr w) :
    PixArr w × PixArr w :=
  let sel := selectionMask alg scl_out sr im
  let scl1 : PixArr w := fun i => if sel i then sr i else scl_out i
  let im1 : PixArr w := fun i => if sel i then n else im i
  (scl1, fun i => if scl1 i < 4 ∨ 6 < scl1 i then 0 else im1 i)

/-- The scene loop of `generateSCLArray`: scenes are numbered from `n` upward. -/
def runMaskAux {w : ℕ} (alg : Algorithm) : ℕ → List (PixArr w) → PixArr w × PixArr w →
    PixArr w × PixArr w
  | _, [], st => st
  | n, s :: rest, st => runMaskAux alg (n + 1) rest (updateMaskArrays alg n st.1 s st.2)

/-- State of `(scl_out, image_n)` after `generateSCLArray` has processed the first `k`
scenes (scene numbers start at 1, both arrays start at 0). -/
def provenancePrefix {w : ℕ} (alg : Algorithm) (scenes : List (PixArr w)) (k : ℕ) :
    PixArr w × PixArr w :=
  runMaskAux alg 1 (scenes.take k) (fun _ => 0, fun _ => 0)

/-- mosaic.py `_updateBandArray`: copy into `data_out` exactly the pixels whose
provenance index `image_n` equals the current scene number `n` (the
`scl_resampled` argument is accepted but unused, as in the source). -/
def updateBandArray {w : ℕ} (data_out data_r im : PixArr w) (n : ℕ) (scl_r : PixArr w) :
    PixArr w :=
  fun i => if im i = n then data_r i else data_out i

/-- Scene `m` contributes pixels iff it appears in `image_n`
(`tile_count[m-1] > 0` in `_getImageOrder`). -/
def contributes {w : ℕ} (im : PixArr w) (m : ℕ) : Prop := ∃ i, im i = m

instance {w : ℕ} (im : PixArr w) (m : ℕ) : Decidable (contributes im m) := by
  unfold contributes; infer_instance

/-- The visitation order of `_getImageOrder`: the lexsort permutation `perm`
(whose floating-point sort keys are abstracted) restricted to scenes that
contribute at least one pixel (`tile_number[tile_count[tile_number-1] > 0]`). -/
def imageOrder {w : ℕ} (perm : List ℕ) (im : PixArr w) : List ℕ :=
  perm.filter (fun m => decide (contributes im m))

/-- mosaic.py `generateBandArray` with `colour_balance = 'none'`: start from an
all-zero band array and fold `_updateBandArray` over the visitation order.
`band m` / `scl m` are the reprojected band / mask of the m-th scene
(`loadBand scenes[m-1]` / `loadMask scenes[m-1]`). -/
def generateBandArrayNone {w : ℕ} (band scl : ℕ → PixArr w) (im : PixArr w)
    (perm : List ℕ) : PixArr w :=
  (imageOrder perm im).foldl (fun acc n => updateBandArray acc (band n) im n (scl n))
    (fun _ => 0)

/-! ### Colour balancing (gain-compensation branch of `generateBandArray`) -/

/-- `np.round(x, 0)`: round to nearest integer, ties to even. -/
def roundHalfEven (q : ℚ) : ℤ :=
  if q - ⌊q⌋ < 1/2 then ⌊q⌋
  else if 1/2 < q - ⌊q⌋ then ⌊q⌋ + 1
  else if 2 ∣ ⌊q⌋ then ⌊q⌋ else ⌊q⌋ + 1

/-- Good pixels of the current scene that overlap already-written output:
`np.logical_and(data_resampled_ma.mask == False, data_out != 0)`. -/
def overlapSet {w : ℕ} (data_out scl_r : PixArr w) : Finset (Fin w) :=
  Finset.univ.filter (fun i => goodCode (scl_r i) ∧ data_out i ≠ 0)

/-- Fraction of the scene's good pixels that overlap existing output:
`float(overlap.sum()) / (data_resampled_ma.mask == False).sum()`. -/
def overlapFrac {w : ℕ} (data_out scl_r : PixArr w) : ℚ :=
  ((overlapSet data_out scl_r).card : ℚ) /
    (((Finset.univ.filter (fun i : Fin w => goodCode (scl_r i))).card : ℚ))

/-- `np.mean(data_out[overlap])`. -/
def refIntensity {w : ℕ} (data_out scl_r : PixArr w) : ℚ :=
  (∑ i ∈ overlapSet data_out scl_r, (data_out i : ℚ)) /
    ((overlapSet data_out scl_r).card : ℚ)

/-- `np.mean(data_resampled[overlap])`. -/
def thisIntensity {w : ℕ} (data_out data_r scl_r : PixArr w) : ℚ :=
  (∑ i ∈ overlapSet data_out scl_r, (data_r i : ℚ)) /
    ((overlapSet data_out scl_r).card : ℚ)

/-- The colour-balancing block of `generateBandArray` (the correction applied to
`data_resampled` before `_updateBandArray`). The `overlap > 0.5` branch calls
`utilities.histogram_match` on masked arrays; that call is delegated to the
function parameter `hm` (the theorems below hold for every `hm`). -/
def colourBalanceStep {w : ℕ} (colour_balance : String)
    (hm : PixArr w → PixArr w → PixArr w → PixArr w)
    (data_out data_r scl_r : PixArr w) : PixArr w :=
  if colour_balance ≠ "none" ∧ (∑ i, data_out i) ≠ 0 then
    if 1/50 < overlapFrac data_out scl_r ∧ overlapFrac data_out scl_r ≤ 1/2 ∧
        colour_balance = "aggressive" then
      fun i =>
        if goodCode (scl_r i) ∧ scl_r i ≠ 6 then
          (roundHalfEven ((data_r i : ℚ) *
            (refIntensity data_out scl_r / thisIntensity data_out data_r scl_r))).toNat % 65536
        else data_r i
    else if 1/2 < overlapFrac data_out scl_r then hm data_r scl_r data_out
    else data_r
  else data_r

/-! ### Histogram matching (utilities.py `histogram_match`, unmasked inputs) -/

/-- `np.interp(x, xp, fp)` for increasing nodes `xp`: clamp below the first node
and above the last, linear interpolation in between. -/
def interp (x : ℚ) : List ℚ → List ℚ → ℚ
  | x0 :: x1 :: xs, y0 :: y1 :: ys =>
      if x ≤ x0 then y0
      else if x ≤ x1 then y0 + (y1 - y0) * (x - x0) / (x1 - x0)
      else interp x (x1 :: xs) (y1 :: ys)
  | [_], [y0] => y0
  | _, _ => 0

/-- Sorted distinct values of an array (`np.unique`). -/
def uniqueValues (l : List ℚ) : List ℚ := l.toFinset.sort (· ≤ ·)

/-- Empirical cumulative distribution of `l` evaluated at `v`: for `v` the j-th
unique value of `l` this is `np.cumsum(counts)[j] / l.size`. -/
def quantileOf (l : List ℚ) (v : ℚ) : ℚ :=
  ((l.countP (fun x => decide (x ≤ v)) : ℕ) : ℚ) / (l.length : ℚ)

/-- utilities.py `histogram_match` for unmasked inputs, over exact rationals:
each source value is mapped through `np.interp` of the reference's
value-vs-quantile curve evaluated at the source value's quantile
(`interp_r_values[s_idx]`). -/
def histogram_match (source reference : List ℚ) : List ℚ :=
  let r_values := uniqueValues reference
  let r_quantiles := r_values.map (quantileOf reference)
  source.map (fun v => interp (quantileOf source v) r_quantiles r_values)

/-! ### Mask improvement (utilities.py `improveMask`) -/

abbrev Grid (h w : ℕ) (α : Type) := Fin h → Fin w → α

/-- One binary dilation step with scipy's default cross-shaped (4-connected)
structuring element and zero border value. -/
def dilateOnce {h w : ℕ} (m : Grid h w Bool) : Grid h w Bool := fun i j =>
  m i j ||
  (if hi : i.val + 1 < h then m ⟨i.val + 1, hi⟩ j else false) ||
  (if hi : i.val ≠ 0 then m ⟨i.val - 1, lt_of_le_of_lt (Nat.pred_le _) i.isLt⟩ j else false) ||
  (if hj : j.val + 1 < w then m i ⟨j.val + 1, hj⟩ else false) ||
  (if hj : j.val ≠ 0 then m i ⟨j.val - 1, lt_of_le_of_lt (Nat.pred_le _) j.isLt⟩ else false)

/-- One binary erosion step (same structuring element, zero border value: border
pixels always erode). -/
def erodeOnce {h w : ℕ} (m : Grid h w Bool) : Grid h w Bool := fun i j =>
  m i j &&
  (if hi : i.val + 1 < h then m ⟨i.val + 1, hi⟩ j else false) &&
  (if hi : i.val ≠ 0 then m ⟨i.val - 1, lt_of_le_of_lt (Nat.pred_le _) i.isLt⟩ j else false) &&
  (if hj : j.val + 1 < w then m i ⟨j.val + 1, hj⟩ else false) &&
  (if hj : j.val ≠ 0 then m i ⟨j.val - 1, lt_of_le_of_lt (Nat.pred_le _) j.isLt⟩ else false)

/-- `scipy.ndimage.morphology.binary_dilation(m, iterations = k)`. -/
def dilate {h w : ℕ} (k : ℕ) (m : Grid h w Bool) : Grid h w Bool := dilateOnce^[k] m

/-- `scipy.ndimage.morphology.binary_erosion(m, iterations = k)`. -/
def erode {h w : ℕ} (k : ℕ) (m : Grid h w Bool) : Grid h w Bool := erodeOnce^[k] m

/-- utilities.py `improveMask`, line for line: reclassify 2→3; send shadows far
from cloud to water; dilate classes 3, 8, 9 from a pre-dilation snapshot into a
working copy (written in the order 3, 8, 9, so 9 wins overlaps, then 8); erode
the nonzero footprint of the original input and zero everything eroded away. -/
def improveMask {h w : ℕ} (data : Grid h w ℕ) (res : ℕ) : Grid h w ℕ :=
  let data_orig := data
  let data1 : Grid h w ℕ := fun i j => if data i j = 2 then 3 else data i j
  let cloud_dilated := dilate (1800 / res) (fun i j => decide (data1 i j = 8 ∨ data1 i j = 9))
  let data2 : Grid h w ℕ := fun i j =>
    if data1 i j = 3 ∧ cloud_dilated i j = false then 6 else data1 i j
  let m3 := dilate (180 / res) (fun i j => decide (data2 i j = 3))
  let m8 := dilate (180 / res) (fun i j => decide (data2 i j = 8))
  let m9 := dilate (180 / res) (fun i j => decide (data2 i j = 9))
  let data3 : Grid h w ℕ := fun i j =>
    if m9 i j then 9 else if m8 i j then 8 else if m3 i j then 3 else data2 i j
  let mask_erode := erode (600 / res) (fun i j => decide (data_orig i j ≠ 0))
  fun i j => if mask_erode i j = false then 0 else data3 i j

/-- Step 1 of the claimed pipeline: reclassify code 2 (dark features) to code 3
(cloud shadow). -/
def reclassifyDark {h w : ℕ} (d : Grid h w ℕ) : Grid h w ℕ :=
  fun i j => if d i j = 2 then 3 else d i j

/-- Step 2 of the claimed pipeline: code-3 pixels farther than `iters` dilation
steps from any code-8 or code-9 pixel become code 6 (water). -/
def shadowToWater {h w : ℕ} (d : Grid h w ℕ) (iters : ℕ) : Grid h w ℕ :=
  fun i j =>
    if d i j = 3 ∧ dilate iters (fun a b => decide (d a b = 8 ∨ d a b = 9)) i j = false
    then 6 else d i j

/-- Step 3 of the claimed pipeline: dilate codes 3, 8, 9, each computed against
the pre-dilation snapshot `d`, committed with 9 over 8 over 3. -/
def bufferCloudClasses {h w : ℕ} (d : Grid h w ℕ) (iters : ℕ) : Grid h w ℕ :=
  fun i j =>
    if dilate iters (fun a b => decide (d a b = 9)) i j then 9
    else if dilate iters (fun a b => decide (d a b = 8)) i j then 8
    else if dilate iters (fun a b => decide (d a b = 3)) i j then 3
    else d i j

/-- Step 4 of the claimed pipeline: erode the has-data region of the original
input `orig` by `iters` steps and zero the eroded-out pixels of `d`. -/
def trimEdges {h w : ℕ} (orig d : Grid h w ℕ) (iters : ℕ) : Grid h w ℕ :=
  fun i j => if erode iters (fun a b => decide (orig a b ≠ 0)) i j = false then 0 else d i j

/-- The four steps of the claim, composed in the claimed order with the claimed
iteration counts (1800/res, 180/res — a 180 m buffer in the 120–180 m range —
and 600/res — a 600 m buffer in the 600–3000 m range; all integer division). -/
def improveMaskSpec {h w : ℕ} (data : Grid h w ℕ) (res : ℕ) : Grid h w ℕ :=
  trimEdges data
    (bufferCloudClasses (shadowToWater (reclassifyDark data) (1800 / res)) (180 / res))
    (600 / res)

/-! ### Scene selection (utilities.py `getSourceFilesInTile`, `sortScenes`) -/

/-- Destination `Metadata`: corner coordinates of the output grid
(`ulx` = xmin, `lry` = ymin, `lrx` = xmax, `uly` = ymax). -/
structure DestGrid where
  ulx : ℚ
  lry : ℚ
  lrx : ℚ
  uly : ℚ

/-- A scene as `getSourceFilesInTile` sees it: the four metadata corner fields
it reads and writes, the acquisition time (`scene.datetime`, as an integer
timestamp), the granule tile id (tile names abstracted to naturals, ordered as
`np.unique` sorts them), and the coordinate transformation of
`osr.CoordinateTransformation(md_source.proj, md_dest.proj)`, split into its
x and y components. -/
structure SceneM where
  ulx : ℚ
  uly : ℚ
  lrx : ℚ
  lry : ℚ
  time : ℤ
  tile : ℕ
  txx : ℚ → ℚ → ℚ
  txy : ℚ → ℚ → ℚ

/-- The in-place writes of `testOutsideTile`:
`md_source.ulx, md_source.uly, z = tx.TransformPoint(md_source.ulx, md_source.uly)`
and likewise for `(lrx, lry)`. All other fields are untouched. -/
def transformScene (s : SceneM) : SceneM :=
  { s with
    ulx := s.txx s.ulx s.uly
    uly := s.txy s.ulx s.uly
    lrx := s.txx s.lrx s.lry
    lry := s.txy s.lrx s.lry }

/-- The four-way disjointness test of `testOutsideTile`, evaluated on the
(already transformed) source corner fields. -/
def outOfTile (s : SceneM) (d : DestGrid) : Bool :=
  decide (s.ulx ≥ d.lrx) || decide (s.lrx ≤ d.ulx) ||
    decide (s.uly ≤ d.lry) || decide (s.lry ≥ d.uly)

/-- utilities.py `testOutsideTile`: transform the corner coordinates in place,
then test disjointness; returns the boolean together with the mutated scene. -/
def testOutsideTile (s : SceneM) (d : DestGrid) : Bool × SceneM :=
  let s' := transformScene s
  (outOfTile s' d, s')

/-- utilities.py `testOutsideDate`: outside iff strictly after `e` or strictly
before `a`. -/
def testOutsideDate (s : SceneM) (a e : ℤ) : Bool :=
  decide (e < s.time) || decide (s.time < a)

/-- The loop of `getSourceFilesInTile`: first component is the post-call state
of every input scene (all of them get their corners transformed, whether kept or
not), second component is the returned selection. -/
def getSourceFilesInTileRun (d : DestGrid) (a e : ℤ) :
    List SceneM → List SceneM × List SceneM
  | [] => ([], [])
  | s :: rest =>
    let s' := (testOutsideTile s d).2
    let r := getSourceFilesInTileRun d a e rest
    if (testOutsideTile s d).1 then (s' :: r.1, r.2)
    else if testOutsideDate s' a e then (s' :: r.1, r.2)
    else (s' :: r.1, s' :: r.2)

/-- The list returned by utilities.py `getSourceFilesInTile`. -/
def getSourceFilesInTile (d : DestGrid) (a e : ℤ) (scenes : List SceneM) : List SceneM :=
  (getSourceFilesInTileRun d a e scenes).2

/-- The geographic-overlap / date-window predicate of the claim: not disjoint
(after transforming the corner coordinates into the destination CRS) and
acquisition time within the inclusive window `[a, e]`. -/
def passesSelection (d : DestGrid) (a e : ℤ) (s : SceneM) : Prop :=
  ¬((transformScene s).ulx ≥ d.lrx ∨ (transformScene s).lrx ≤ d.ulx ∨
      (transformScene s).uly ≤ d.lry ∨ (transformScene s).lry ≥ d.uly) ∧
    a ≤ s.time ∧ s.time ≤ e

instance (d : DestGrid) (a e : ℤ) (s : SceneM) : Decidable (passesSelection d a e s) := by
  unfold passesSelection; infer_instance

/-- utilities.py `sortScenes`: group by sorted unique tile then stably sort each
group by date when `sortKey = "tile"`; group by sorted unique date then sort each
group by tile when `sortKey = "date"`; any other key leaves `scenes_out` empty. -/
def sortScenes (scenes : List SceneM) (sortKey : String) : List SceneM :=
  if sortKey = "tile" then
    ((scenes.map SceneM.tile).toFinset.sort (· ≤ ·)).flatMap
      (fun t => (scenes.filter (fun s => s.tile = t)).mergeSort
        (fun s s' => s.time ≤ s'.time))
  else if sortKey = "date" then
    ((scenes.map SceneM.time).toFinset.sort (· ≤ ·)).flatMap
      (fun dt => (scenes.filter (fun s => s.time = dt)).mergeSort
        (fun s s' => s.tile ≤ s'.tile))
  else []

/-! ### Concrete instances used by witnesses, scenarios and counterexamples -/

/-- Scenario D, scene 1: 30% good (codes 4 on pixels 0–2, cloud 9 elsewhere). -/
def sD1 : PixArr 10 := fun i => if i.val < 3 then 4 else 9

/-- Scenario D, scene 2: 60% good (codes 5 on pixels 0–5, cloud 9 elsewhere). -/
def sD2 : PixArr 10 := fun i => if i.val < 6 then 5 else 9

/-- Scenario D, scene 3: 100% good. -/
def sD3 : PixArr 10 := fun _ => 4

/-- A single-pixel all-good scene. -/
def w1scene : PixArr 1 := fun _ => 5

/-- A second single-pixel all-good scene with a different code. -/
def w1scene5 : PixArr 1 := fun _ => 4

/-- Concrete provenance map on two pixels: pixel 0 from scene 1, pixel 1 unfilled. -/
def bim : PixArr 2 := ![1, 0]

/-- Concrete reprojected band data: scene `n` has constant value `n + 7`. -/
def bband : ℕ → PixArr 2 := fun n _ => n + 7

/-- Concrete reprojected masks (irrelevant to `_updateBandArray`). -/
def bscl : ℕ → PixArr 2 := fun _ _ => 0

/-- Colour-balance example: scene mask with a vegetation pixel, a water pixel and
two cloud pixels. -/
def cScl : PixArr 4 := ![4, 6, 9, 9]

/-- Colour-balance example: existing output with data only at pixel 0. -/
def cOut : PixArr 4 := ![7, 0, 0, 0]

/-- Colour-balance example: this scene's reprojected band values. -/
def cData : PixArr 4 := ![10, 10, 5, 5]

/-- A stand-in for the histogram-matching branch (never reached in the examples). -/
def hm0 : PixArr 4 → PixArr 4 → PixArr 4 → PixArr 4 := fun d _ _ => d

/-- A 2×2 all-dark-features classification grid. -/
def g6 : Grid 2 2 ℕ := fun _ _ => 2

/-- A destination grid spanning [0,100] × [0,100]. -/
def destTest : DestGrid := { ulx := 0, lry := 0, lrx := 100, uly := 100 }

/-- A scene whose source CRS differs from the destination CRS: the coordinate
transformation shifts x by 1000. -/
def sceneShift : SceneM :=
  { ulx := 0, uly := 10, lrx := 10, lry := 0, time := 5, tile := 0,
    txx := fun x _ => x + 1000, txy := fun _ y => y }

/-- A scene already in the destination CRS (identity transformation). -/
def sceneId : SceneM :=
  { ulx := 0, uly := 10, lrx := 10, lry := 0, time := 5, tile := 3,
    txx := fun x _ => x, txy := fun _ y => y }

/-! ### Provenance-consistency helpers -/

lemma selectionMask_good {w : ℕ} (alg : Algorithm) (so sr im : PixArr w) (i : Fin w)
    (h : selectionMask alg so sr im i = true) : goodCode (sr i) := by
  cases alg <;> simp only [selectionMask, Bool.or_eq_true, Bool.and_eq_true,
    decide_eq_true_eq] at h <;> tauto

lemma updateMask_consistent {w : ℕ} (alg : Algorithm) (n : ℕ) (hn : n ≠ 0)
    (so sr im : PixArr w) (hpre : ∀ j, im j = 0 ↔ ¬ goodCode (so j)) (i : Fin w) :
    (updateMaskArrays alg n so sr im).2 i = 0 ↔
      ¬ goodCode ((updateMaskArrays alg n so sr im).1 i) := by
  unfold updateMaskArrays
  simp only
  by_cases hsel : selectionMask alg so sr im i = true
  · have hg := selectionMask_good alg so sr im i hsel
    rw [if_pos hsel, if_pos hsel]
    have hcond : ¬(sr i < 4 ∨ 6 < sr i) := by unfold goodCode at hg; omega
    rw [if_neg hcond]
    constructor
    · intro h0; exact absurd h0 hn
    · intro h; exact absurd hg h
  · rw [if_neg hsel, if_neg hsel]
    by_cases hgood : goodCode (so i)
    · have hcond : ¬(so i < 4 ∨ 6 < so i) := by unfold goodCode at hgood; omega
      rw [if_neg hcond]
      exact hpre i
    · have hcond : so i < 4 ∨ 6 < so i := by unfold goodCode at hgood; omega
      rw [if_pos hcond]
      simp [hgood]

lemma runMaskAux_consistent {w : ℕ} (alg : Algorithm) (l : List (PixArr w)) :
    ∀ (n : ℕ), n ≠ 0 → ∀ (st : PixArr w × PixArr w),
      (∀ j, st.2 j = 0 ↔ ¬ goodCode (st.1 j)) →
      ∀ i, (runMaskAux alg n l st).2 i = 0 ↔ ¬ goodCode ((runMaskAux alg n l st).1 i) := by
  induction l with
  | nil => intro n _ st hpre i; exact hpre i
  | cons s rest ih =>
      intro n hn st hpre i
      exact ih (n + 1) (Nat.succ_ne_zero n)
        (updateMaskArrays alg n st.1 s st.2)
        (updateMask_consistent alg n hn st.1 s st.2 hpre) i

/-- Claim C1: after each scene-update step of the provenance engine (so in
particular at the end of provenance construction) and for every pixel,
`image_n[p] ≠ 0` implies `scl_out[p] ∈ {4,5,6}`, and `image_n[p] = 0` iff
`scl_out[p] ∉ {4,5,6}`; this holds for every scene list (hence for both states
of the mask-correction flag, which only changes the input masks) and for every
compositing algorithm. -/
theorem provenance_consistency {w : ℕ} (alg : Algorithm) (scenes : List (PixArr w))
    (k : ℕ) (i : Fin w) :
    ((provenancePrefix alg scenes k).2 i ≠ 0 →
      goodCode ((provenancePrefix alg scenes k).1 i)) ∧
    ((provenancePrefix alg scenes k).2 i = 0 ↔
      ¬ goodCode ((provenancePrefix alg scenes k).1 i)) := by
  have h := runMaskAux_consistent alg (scenes.take k) 1 one_ne_zero
    (fun _ => 0, fun _ => 0) (by intro j; simp [goodCode]) i
  exact ⟨fun hne => not_not.mp (fun hng => hne ((h).mpr hng)), h⟩

theorem provenance_consistency_witness :
    (provenancePrefix Algorithm.MOST_RECENT [w1scene] 1).2 0 ≠ 0 ∧
      goodCode ((provenancePrefix Algorithm.MOST_RECENT [w1scene] 1).1 0) :=
  ⟨by decide, (provenance_consistency Algorithm.MOST_RECENT [w1scene] 1 0).1 (by decide)⟩

/-- Claim C2: under TEMP_HOMOGENEITY, scene n selects good (code ∈ {4,5,6})
pixels that are currently unfilled, and re-selects all of its good pixels
exactly when its good-pixel count strictly exceeds the maximum per-assigned-scene
pixel count among pixels whose reprojected code for scene n is nonzero (the
source additionally guards on that pixel set being nonempty, but when it is
empty every good pixel is unfilled, so the selections agree); consequently, for
three same-footprint scenes with 30%, 60%, 100% good pixels visited in that
order, the final provenance map is entirely scene 3 (Scenario D). -/
theorem temp_homogeneity_rule :
    (∀ (w : ℕ) (so sr im : PixArr w) (i : Fin w),
        selectionMask Algorithm.TEMP_HOMOGENEITY so sr im i =
          (decide (goodCode (sr i)) &&
            (decide (im i = 0) || decide (maxAssignedCount im sr < countGood sr)))) ∧
    (∀ i : Fin 10,
        (provenancePrefix Algorithm.TEMP_HOMOGENEITY [sD1, sD2, sD3] 3).2 i = 3) := by
  constructor
  · intro w so sr im i
    rw [Bool.eq_iff_iff]
    simp only [selectionMask, Bool.or_eq_true, Bool.and_eq_true, decide_eq_true_eq]
    by_cases hne : (assignedSet im sr).Nonempty
    · constructor
      · rintro (⟨hg, h0⟩ | ⟨⟨_, hmax⟩, hg⟩)
        · exact ⟨hg, Or.inl h0⟩
        · exact ⟨hg, Or.inr hmax⟩
      · rintro ⟨hg, h0 | hmax⟩
        · exact Or.inl ⟨hg, h0⟩
        · exact Or.inr ⟨⟨hne, hmax⟩, hg⟩
    · have hempty : assignedSet im sr = ∅ := Finset.not_nonempty_iff_eq_empty.mp hne
      constructor
      · rintro (⟨hg, h0⟩ | ⟨⟨hab, _⟩, _⟩)
        · exact ⟨hg, Or.inl h0⟩
        · exact absurd hab hne
      · rintro ⟨hg, _⟩
        refine Or.inl ⟨hg, ?_⟩
        by_contra h0
        have hmem : i ∈ assignedSet im sr := by
          unfold assignedSet
          simp only [Finset.mem_filter, Finset.mem_univ, true_and]
          refine ⟨Nat.pos_of_ne_zero h0, ?_⟩
          unfold goodCode at hg
          omega
        rw [hempty] at hmem
        exact absurd hmem (Finset.not_mem_empty i)
  · decide

lemma foldl_updateBand {w : ℕ} (band scl : ℕ → PixArr w) (im : PixArr w) (L : List ℕ) :
    ∀ (init : PixArr w) (p : Fin w),
      (L.foldl (fun acc n => updateBandArray acc (band n) im n (scl n)) init) p =
        if im p ∈ L then band (im p) p else init p := by
  induction L with
  | nil => intro init p; simp
  | cons n rest ih =>
      intro init p
      simp only [List.foldl_cons]
      rw [ih]
      by_cases hrest : im p ∈ rest
      · simp [hrest]
      · by_cases hn : im p = n
        · simp [hrest, hn, updateBandArray]
        · simp [hrest, hn, updateBandArray]

/-- Claim C3: with colour balancing disabled, every filled pixel of the
assembled band equals the reprojected band of the scene its provenance index
names, every unfilled pixel is 0, each `_updateBandArray` call writes only
pixels whose provenance index equals the current scene, and every scene in the
visitation order contributes at least one pixel (zero-contribution scenes are
skipped). `perm` is the lexsort permutation of `_getImageOrder`, whose two
guaranteed properties are hypotheses: it never contains 0 and it contains every
scene index appearing in the provenance map. -/
theorem band_fidelity {w : ℕ} (band scl : ℕ → PixArr w) (im : PixArr w) (perm : List ℕ)
    (h0 : 0 ∉ perm) (hcov : ∀ p : Fin w, im p ≠ 0 → im p ∈ perm) :
    (∀ p, im p = 0 → generateBandArrayNone band scl im perm p = 0) ∧
    (∀ p, im p ≠ 0 → generateBandArrayNone band scl im perm p = band (im p) p) ∧
    (∀ (acc dr sclr : PixArr w) (n : ℕ) (p : Fin w), im p ≠ n →
        updateBandArray acc dr im n sclr p = acc p) ∧
    (∀ m ∈ imageOrder perm im, contributes im m) := by
  refine ⟨?_, ?_, ?_, ?_⟩
  · intro p hp
    unfold generateBandArrayNone
    rw [foldl_updateBand]
    have hnot : im p ∉ imageOrder perm im := by
      intro hmem
      exact h0 (hp ▸ (List.mem_filter.mp hmem).1)
    rw [if_neg hnot]
  · intro p hp
    unfold generateBandArrayNone
    rw [foldl_updateBand]
    have hmem : im p ∈ imageOrder perm im :=
      List.mem_filter.mpr ⟨hcov p hp, decide_eq_true ⟨p, rfl⟩⟩
    rw [if_pos hmem]
  · intro acc dr sclr n p hne
    unfold updateBandArray
    rw [if_neg hne]
  · intro m hm
    exact of_decide_eq_true (List.mem_filter.mp hm).2

theorem band_fidelity_witness :
    generateBandArrayNone bband bscl bim [1, 2] 0 = bband 1 0 ∧
      generateBandArrayNone bband bscl bim [1, 2] 1 = 0 :=
  ⟨by
    have h := (band_fidelity bband bscl bim [1, 2] (by decide) (by decide)).2.1 0 (by decide)
    rw [h]; rfl,
   (band_fidelity bband bscl bim [1, 2] (by decide) (by decide)).1 1 (by decide)⟩

lemma updateMask_MD_frozen {w : ℕ} (n : ℕ) (so sr im : PixArr w)
    (hpre : ∀ j, im j = 0 ↔ ¬ goodCode (so j)) (i : Fin w) (hfill : im i ≠ 0) :
    (updateMaskArrays Algorithm.MOST_DISTANT n so sr im).1 i = so i ∧
      (updateMaskArrays Algorithm.MOST_DISTANT n so sr im).2 i = im i := by
  have hgood : goodCode (so i) := not_not.mp (fun h => hfill ((hpre i).mpr h))
  have hsel : ¬ selectionMask Algorithm.MOST_DISTANT so sr im i = true := by
    simp only [selectionMask, decide_eq_true_eq, not_and]
    intro hout
    unfold goodCode at hgood
    omega
  have hcond : ¬(so i < 4 ∨ 6 < so i) := by unfold goodCode at hgood; omega
  unfold updateMaskArrays
  simp only
  rw [if_neg hsel, if_neg hsel]
  exact ⟨rfl, by rw [if_neg hcond]⟩

lemma runMaskAux_MD_frozen {w : ℕ} (l : List (PixArr w)) :
    ∀ (n : ℕ), n ≠ 0 → ∀ (st : PixArr w × PixArr w),
      (∀ j, st.2 j = 0 ↔ ¬ goodCode (st.1 j)) →
      ∀ i, st.2 i ≠ 0 →
        (runMaskAux Algorithm.MOST_DISTANT n l st).1 i = st.1 i ∧
          (runMaskAux Algorithm.MOST_DISTANT n l st).2 i = st.2 i := by
  induction l with
  | nil => intro n _ st _ i _; exact ⟨rfl, rfl⟩
  | cons s rest ih =>
      intro n hn st hpre i hfill
      have hfrozen := updateMask_MD_frozen n st.1 s st.2 hpre i hfill
      have hrec := ih (n + 1) (Nat.succ_ne_zero n)
        (updateMaskArrays Algorithm.MOST_DISTANT n st.1 s st.2)
        (updateMask_consistent Algorithm.MOST_DISTANT n hn st.1 s st.2 hpre) i
        (by rw [hfrozen.2]; exact hfill)
      exact ⟨hrec.1.trans hfrozen.1, hrec.2.trans hfrozen.2⟩

lemma runMaskAux_append {w : ℕ} (alg : Algorithm) (l1 : List (PixArr w)) :
    ∀ (l2 : List (PixArr w)) (n : ℕ) (st : PixArr w × PixArr w),
      runMaskAux alg n (l1 ++ l2) st =
        runMaskAux alg (n + l1.length) l2 (runMaskAux alg n l1 st) := by
  induction l1 with
  | nil => intro l2 n st; simp [runMaskAux]
  | cons s rest ih =>
      intro l2 n st
      simp only [List.cons_append, runMaskAux, List.length_cons, List.append_eq]
      rw [ih]
      congr 1
      omega

/-- Claim C4: under MOST_DISTANT, once a pixel is filled after processing the
first k scenes, processing any further scenes (here: reaching any later prefix
m ≥ k) leaves both its classification code and its provenance index unchanged —
no later scene overwrites it and the end-of-step reset never clears it. -/
theorem most_distant_monotone {w : ℕ} (scenes : List (PixArr w)) (k m : ℕ)
    (hkm : k ≤ m) (i : Fin w)
    (hfill : (provenancePrefix Algorithm.MOST_DISTANT scenes k).2 i ≠ 0) :
    (provenancePrefix Algorithm.MOST_DISTANT scenes m).1 i =
      (provenancePrefix Algorithm.MOST_DISTANT scenes k).1 i ∧
    (provenancePrefix Algorithm.MOST_DISTANT scenes m).2 i =
      (provenancePrefix Algorithm.MOST_DISTANT scenes k).2 i := by
  have hdecomp : scenes.take m = scenes.take k ++ (scenes.drop k).take (m - k) := by
    rw [← List.take_add]
    congr 1
    omega
  unfold provenancePrefix at *
  rw [hdecomp, runMaskAux_append]
  exact runMaskAux_MD_frozen ((scenes.drop k).take (m - k))
    (1 + (scenes.take k).length) (by omega)
    (runMaskAux Algorithm.MOST_DISTANT 1 (scenes.take k) (fun _ => 0, fun _ => 0))
    (runMaskAux_consistent Algorithm.MOST_DISTANT (scenes.take k) 1 one_ne_zero
      (fun _ => 0, fun _ => 0) (by intro j; simp [goodCode]))
    i hfill

theorem most_distant_monotone_witness :
    (provenancePrefix Algorithm.MOST_DISTANT [w1scene, w1scene5] 1).2 0 ≠ 0 ∧
      (provenancePrefix Algorithm.MOST_DISTANT [w1scene, w1scene5] 2).2 0 =
        (provenancePrefix Algorithm.MOST_DISTANT [w1scene, w1scene5] 1).2 0 :=
  ⟨by decide,
    (most_distant_monotone [w1scene, w1scene5] 1 2 (by decide) 0 (by decide)).2⟩

/-! ### Histogram-match round trip -/

lemma countP_le_lt (s : List ℚ) (a b : ℚ) (hab : a < b) (hb : b ∈ s) :
    s.countP (fun x => decide (x ≤ a)) < s.countP (fun x => decide (x ≤ b)) := by
  induction s with
  | nil => cases hb
  | cons h t ih =>
      have hmono : t.countP (fun x => decide (x ≤ a)) ≤ t.countP (fun x => decide (x ≤ b)) :=
        List.countP_mono_left
          (fun x _ hx => decide_eq_true (le_trans (of_decide_eq_true hx) hab.le))
      rw [List.countP_cons, List.countP_cons]
      rcases List.mem_cons.mp hb with rfl | hbt
      · have h1 : ¬ (decide (b ≤ a) = true) := by
          simp only [decide_eq_true_eq]
          exact not_le.mpr hab
        have h2 : decide (b ≤ b) = true := by simp
        rw [if_neg h1, if_pos h2]
        omega
      · have hlt := ih hbt
        have hhead : (if decide (h ≤ a) = true then 1 else 0) ≤
            (if decide (h ≤ b) = true then 1 else 0) := by
          by_cases hha : h ≤ a
          · simp [hha, le_trans hha hab.le]
          · simp [hha]
        omega

lemma quantileOf_strictMonoOn (s : List ℚ) (a b : ℚ) (hab : a < b) (hb : b ∈ s) :
    quantileOf s a < quantileOf s b := by
  unfold quantileOf
  have hlen : 0 < s.length := List.length_pos.mpr (List.ne_nil_of_mem hb)
  have hcount := countP_le_lt s a b hab hb
  rw [div_lt_div_iff_of_pos_right (by exact_mod_cast hlen)]
  exact_mod_cast hcount

lemma interp_at_node : ∀ (xp fp : List ℚ), xp.Pairwise (· < ·) → xp.length = fp.length →
    ∀ (j : ℕ) (hj : j < xp.length) (hj2 : j < fp.length), interp xp[j] xp fp = fp[j] := by
  intro xp
  induction xp with
  | nil => intro fp _ _ j hj _; exact absurd hj (by simp)
  | cons x0 tail ih =>
      intro fp hpw hlen j hj hj2
      cases tail with
      | nil =>
          cases fp with
          | nil => simp at hlen
          | cons y0 ys =>
              cases ys with
              | nil =>
                  have hj0 : j = 0 := by
                    simp only [List.length_cons, List.length_nil] at hj
                    omega
                  subst hj0
                  rfl
              | cons y1 ys2 => simp at hlen
      | cons x1 xs =>
          cases fp with
          | nil => simp at hlen
          | cons y0 fp1 =>
              cases fp1 with
              | nil => simp at hlen
              | cons y1 ys =>
                  rcases List.pairwise_cons.mp hpw with ⟨h0, hpwtail⟩
                  match j with
                  | 0 =>
                      show interp x0 (x0 :: x1 :: xs) (y0 :: y1 :: ys) = y0
                      rw [show interp x0 (x0 :: x1 :: xs) (y0 :: y1 :: ys) =
                        (if x0 ≤ x0 then y0 else if x0 ≤ x1 then
                          y0 + (y1 - y0) * (x0 - x0) / (x1 - x0)
                        else interp x0 (x1 :: xs) (y1 :: ys)) from rfl]
                      rw [if_pos le_rfl]
                  | 1 =>
                      show interp x1 (x0 :: x1 :: xs) (y0 :: y1 :: ys) = y1
                      have h01 : x0 < x1 := h0 x1 (List.mem_cons_self x1 xs)
                      rw [show interp x1 (x0 :: x1 :: xs) (y0 :: y1 :: ys) =
                        (if x1 ≤ x0 then y0 else if x1 ≤ x1 then
                          y0 + (y1 - y0) * (x1 - x0) / (x1 - x0)
                        else interp x1 (x1 :: xs) (y1 :: ys)) from rfl]
                      rw [if_neg (not_le.mpr h01), if_pos le_rfl, mul_div_assoc,
                        div_self (sub_ne_zero.mpr (ne_of_gt h01)), mul_one]
                      ring
                  | Nat.succ (Nat.succ k) =>
                      have hjx : k + 1 < (x1 :: xs).length := by
                        simp only [List.length_cons] at hj ⊢
                        omega
                      have hjy : k + 1 < (y1 :: ys).length := by
                        simp only [List.length_cons] at hj2 ⊢
                        omega
                      have hxval : (x0 :: x1 :: xs)[k + 2] = (x1 :: xs)[k + 1] := rfl
                      have hmem1 : (x1 :: xs)[k + 1] ∈ x1 :: xs := List.getElem_mem hjx
                      have hx0lt : x0 < (x1 :: xs)[k + 1] := h0 _ hmem1
                      rcases List.pairwise_cons.mp hpwtail with ⟨h1, _⟩
                      have hkxs : k < xs.length := by
                        simp only [List.length_cons] at hjx
                        omega
                      have hmem2 : xs[k] ∈ xs := List.getElem_mem hkxs
                      have hx1lt : x1 < (x1 :: xs)[k + 1] := by
                        have heq : (x1 :: xs)[k + 1] = xs[k] := rfl
                        rw [heq]
                        exact h1 _ hmem2
                      rw [hxval]
                      rw [show interp ((x1 :: xs)[k + 1]) (x0 :: x1 :: xs) (y0 :: y1 :: ys) =
                        (if (x1 :: xs)[k + 1] ≤ x0 then y0
                         else if (x1 :: xs)[k + 1] ≤ x1 then
                          y0 + (y1 - y0) * ((x1 :: xs)[k + 1] - x0) / (x1 - x0)
                         else interp ((x1 :: xs)[k + 1]) (x1 :: xs) (y1 :: ys)) from rfl]
                      rw [if_neg (not_le.mpr hx0lt), if_neg (not_le.mpr hx1lt)]
                      have hlen2 : (x1 :: xs).length = (y1 :: ys).length := by
                        simp only [List.length_cons] at hlen ⊢
                        omega
                      exact ih (y1 :: ys) hpwtail hlen2 (k + 1) hjx hjy

/-- Claim C5: matching a source array against itself as reference returns the
source array unchanged (exactly, over exact rationals, so "within floating-point
tolerance" in the float implementation) and in particular of the same length. -/
theorem histogram_match_self (s : List ℚ) : histogram_match s s = s := by
  show s.map (fun v => interp (quantileOf s v)
      ((uniqueValues s).map (quantileOf s)) (uniqueValues s)) = s
  have hfix : ∀ v ∈ s, interp (quantileOf s v)
      ((uniqueValues s).map (quantileOf s)) (uniqueValues s) = v := by
    intro v hv
    have hvu : v ∈ uniqueValues s := by
      unfold uniqueValues
      rw [Finset.mem_sort]
      exact List.mem_toFinset.mpr hv
    obtain ⟨j, hj, hget⟩ := List.mem_iff_getElem.mp hvu
    have hmem_s : ∀ x ∈ uniqueValues s, x ∈ s := by
      intro x hx
      unfold uniqueValues at hx
      rw [Finset.mem_sort] at hx
      exact List.mem_toFinset.mp hx
    have hpw : (uniqueValues s).Pairwise (· < ·) := Finset.sort_sorted_lt _
    have hpw2 : ((uniqueValues s).map (quantileOf s)).Pairwise (· < ·) := by
      rw [List.pairwise_map]
      exact hpw.imp_of_mem
        (fun ha hb hlt => quantileOf_strictMonoOn s _ _ hlt (hmem_s _ hb))
    have hlenm : ((uniqueValues s).map (quantileOf s)).length = (uniqueValues s).length :=
      List.length_map _ _
    have hj2 : j < ((uniqueValues s).map (quantileOf s)).length := by
      rw [hlenm]
      exact hj
    have hnode := interp_at_node ((uniqueValues s).map (quantileOf s)) (uniqueValues s)
      hpw2 hlenm j hj2 hj
    rw [List.getElem_map, hget] at hnode
    exact hnode
  calc s.map (fun v => interp (quantileOf s v)
        ((uniqueValues s).map (quantileOf s)) (uniqueValues s))
      = s.map id := List.map_congr_left hfix
    _ = s := List.map_id s

/-- Claim C6: for every classification array and resolution in {10, 20, 60},
`improveMask` is exactly the composition of the four claimed steps in order —
reclassify 2→3; send code-3 pixels farther than 1800/res dilation iterations
from any code-8/9 pixel to code 6; dilate codes 3, 8, 9 by 180/res iterations
(a 120–180 m buffer), each against the pre-dilation snapshot via a working
copy; erode the has-data region of the original input by 600/res iterations
(a 600–3000 m buffer) and zero the eroded pixels. -/
theorem improveMask_steps (h w : ℕ) (data : Grid h w ℕ) (res : ℕ)
    (hres : res = 10 ∨ res = 20 ∨ res = 60) :
    improveMask data res = improveMaskSpec data res := rfl

theorem improveMask_steps_witness : improveMask g6 20 = improveMaskSpec g6 20 :=
  improveMask_steps 2 2 g6 20 (Or.inr (Or.inl rfl))

lemma roundHalfEven_intCast (z : ℤ) : roundHalfEven (z : ℚ) = z := by
  unfold roundHalfEven
  rw [Int.floor_intCast, sub_self]
  norm_num

lemma cFrac_eval : overlapFrac cOut cScl = 1/2 := by
  unfold overlapFrac
  rw [show (overlapSet cOut cScl).card = 1 from by decide,
    show (Finset.univ.filter (fun i : Fin 4 => goodCode (cScl i))).card = 2 from by decide]
  norm_num

lemma cRef_eval : refIntensity cOut cScl = 7 := by
  unfold refIntensity
  rw [show overlapSet cOut cScl = {0} from by decide, Finset.sum_singleton,
    Finset.card_singleton, show cOut 0 = 7 from by decide]
  norm_num

lemma cThis_eval : thisIntensity cOut cData cScl = 10 := by
  unfold thisIntensity
  rw [show overlapSet cOut cScl = {0} from by decide, Finset.sum_singleton,
    Finset.card_singleton, show cData 0 = 10 from by decide]
  norm_num

lemma cStep_eval : colourBalanceStep "aggressive" hm0 cOut cData cScl = fun i =>
    if goodCode (cScl i) ∧ cScl i ≠ 6 then
      (roundHalfEven ((cData i : ℚ) * ((7 : ℚ) / 10))).toNat % 65536
    else cData i := by
  unfold colourBalanceStep
  rw [if_pos ⟨by decide, by decide⟩,
    if_pos ⟨by rw [cFrac_eval]; norm_num, by rw [cFrac_eval], rfl⟩,
    cRef_eval, cThis_eval]

lemma cScaled1_eval :
    (roundHalfEven ((cData 1 : ℚ) *
      (refIntensity cOut cScl / thisIntensity cOut cData cScl))).toNat % 65536 = 7 := by
  rw [cRef_eval, cThis_eval, show cData 1 = 10 from by decide]
  rw [show ((10 : ℕ) : ℚ) * ((7 : ℚ) / 10) = ((7 : ℤ) : ℚ) by norm_num]
  rw [roundHalfEven_intCast]
  decide

/-- Claim C7 counterexample: the gain correction is not applied to every
non-shadow good pixel. In the concrete instance, pixel 1 is good (code 6,
water — not shadow, which is code 3), the output has data, the overlap fraction
is exactly 1/2 and the mode is aggressive, yet the code leaves the pixel's
value at 10 instead of scaling it to round(10·(7/10)) = 7: the source restricts
the correction with `scl_resampled != 6`, excluding water, not shadow. -/
theorem gain_nonshadow_not_all_scaled :
    ¬ ∀ i : Fin 4, goodCode (cScl i) ∧ cScl i ≠ 3 →
        colourBalanceStep "aggressive" hm0 cOut cData cScl i =
          (roundHalfEven ((cData i : ℚ) *
            (refIntensity cOut cScl / thisIntensity cOut cData cScl))).toNat % 65536 := by
  intro hclaim
  have h1 := hclaim 1 (by decide)
  rw [cScaled1_eval, cStep_eval] at h1
  simp only at h1
  rw [if_neg (by decide)] at h1
  exact absurd h1 (by decide)

/-- Claim C7 (amended): when the output already has data, an overlap fraction of
at most 2% applies no correction; an overlap fraction strictly above 2% and at
most 50% in aggressive mode multiplies the scene's values by
`mean(output[overlap]) / mean(this_scene[overlap])` (rounded half-to-even and
cast to uint16), applied only to non-water good pixels (codes 4 and 5;
`scl_resampled != 6`), leaving every other pixel unchanged. -/
theorem gain_compensation_amended {w : ℕ} (cb : String)
    (hm : PixArr w → PixArr w → PixArr w → PixArr w)
    (data_out data_r scl_r : PixArr w) (hsum : (∑ i, data_out i) ≠ 0) :
    (overlapFrac data_out scl_r ≤ 1/50 →
        colourBalanceStep cb hm data_out data_r scl_r = data_r) ∧
    (1/50 < overlapFrac data_out scl_r → overlapFrac data_out scl_r ≤ 1/2 →
      cb = "aggressive" →
        ∀ i, colourBalanceStep cb hm data_out data_r scl_r i =
          if goodCode (scl_r i) ∧ scl_r i ≠ 6 then
            (roundHalfEven ((data_r i : ℚ) *
              (refIntensity data_out scl_r /
                thisIntensity data_out data_r scl_r))).toNat % 65536
          else data_r i) := by
  constructor
  · intro hle
    unfold colourBalanceStep
    by_cases hcb : cb = "none"
    · rw [if_neg (fun hc => hc.1 hcb)]
    · rw [if_pos ⟨hcb, hsum⟩,
        if_neg (fun hB => absurd hB.1 (not_lt.mpr hle)),
        if_neg (not_lt.mpr (hle.trans (by norm_num)))]
  · intro h1 h2 hcb i
    unfold colourBalanceStep
    rw [if_pos ⟨by rw [hcb]; intro hx; exact absurd hx (by decide), hsum⟩,
      if_pos ⟨h1, h2, hcb⟩]

theorem gain_compensation_amended_witness :
    (∑ i, cOut i) ≠ 0 ∧
      colourBalanceStep "aggressive" hm0 cOut cData cScl 0 =
        (if goodCode (cScl 0) ∧ cScl 0 ≠ 6 then
          (roundHalfEven ((cData 0 : ℚ) *
            (refIntensity cOut cScl / thisIntensity cOut cData cScl))).toNat % 65536
        else cData 0) :=
  ⟨by decide,
    (gain_compensation_amended "aggressive" hm0 cOut cData cScl (by decide)).2
      (by rw [cFrac_eval]; norm_num) (by rw [cFrac_eval]) rfl 0⟩

lemma passes_iff (d : DestGrid) (a e : ℤ) (s : SceneM) :
    passesSelection d a e s ↔
      (outOfTile (transformScene s) d = false ∧
        testOutsideDate (transformScene s) a e = false) := by
  unfold passesSelection outOfTile testOutsideDate
  simp only [Bool.or_eq_false_iff, decide_eq_false_iff_not, not_or, not_le, not_lt,
    show (transformScene s).time = s.time from rfl]
  tauto

/-- Claim C8: the scene selector returns exactly the sub-list, in input order,
of scenes that are not geographically disjoint from the destination grid (with
disjointness the four-way test on the corner coordinates transformed into the
destination CRS) and whose acquisition time lies in the inclusive window
[a, e]; the returned scenes carry the transformed corner fields the call
leaves behind. -/
theorem scene_selector_filter (d : DestGrid) (a e : ℤ) (scenes : List SceneM) :
    getSourceFilesInTile d a e scenes =
      (scenes.filter (fun s => decide (passesSelection d a e s))).map transformScene := by
  induction scenes with
  | nil => rfl
  | cons s rest ih =>
      have hrun : getSourceFilesInTile d a e (s :: rest) =
          (if outOfTile (transformScene s) d then getSourceFilesInTile d a e rest
           else if testOutsideDate (transformScene s) a e then
             getSourceFilesInTile d a e rest
           else transformScene s :: getSourceFilesInTile d a e rest) := by
        cases h1 : outOfTile (transformScene s) d with
        | true => simp [getSourceFilesInTile, getSourceFilesInTileRun, testOutsideTile, h1]
        | false =>
            cases h2 : testOutsideDate (transformScene s) a e with
            | true =>
                simp [getSourceFilesInTile, getSourceFilesInTileRun, testOutsideTile, h1, h2]
            | false =>
                simp [getSourceFilesInTile, getSourceFilesInTileRun, testOutsideTile, h1, h2]
      rw [hrun, List.filter_cons]
      by_cases hp : passesSelection d a e s
      · have hio := (passes_iff d a e s).mp hp
        rw [hio.1, hio.2]
        simp [hp, ih]
      · have hio : ¬(outOfTile (transformScene s) d = false ∧
            testOutsideDate (transformScene s) a e = false) :=
          fun hc => hp ((passes_iff d a e s).mpr hc)
        cases h1 : outOfTile (transformScene s) d with
        | true => simp [hp, ih]
        | false =>
            have h2 : testOutsideDate (transformScene s) a e = true := by
              cases h2 : testOutsideDate (transformScene s) a e with
              | true => rfl
              | false => exact absurd ⟨h1, h2⟩ hio
            rw [h2]
            simp [hp, ih]

/-- Claim C9 evaluation: the scene-selection code mutates scene metadata. For a
scene whose source CRS differs from the destination CRS (here the
transformation shifts x by 1000), after `getSourceFilesInTile` runs, the
scene's metadata `ulx` field holds the transformed value 1000, not its original
value 0 — `testOutsideTile` assigns the transformed coordinates back into
`md_source.ulx/uly/lrx/lry` in place, contradicting the read-only contract the
claim (and the spec's Scene data model) states. -/
theorem scene_selector_mutates_metadata :
    ((getSourceFilesInTileRun destTest 0 9 [sceneShift]).1.head?.map SceneM.ulx)
        = some 1000 ∧
      sceneShift.ulx = 0 := by
  have hfst : (getSourceFilesInTileRun destTest 0 9 [sceneShift]).1
      = [transformScene sceneShift] := by
    simp only [getSourceFilesInTileRun, apply_ite Prod.fst, ite_self]
    rfl
  constructor
  · rw [hfst]
    show some ((transformScene sceneShift).ulx) = some 1000
    norm_num [transformScene, sceneShift]
  · rfl

/-- Claim C10: `sortScenes` with a sort key other than "tile" or "date" falls
through both branches and returns the (still empty) `scenes_out`, silently
discarding every scene. -/
theorem sortScenes_unknown_key (scenes : List SceneM) (sortKey : String)
    (h1 : sortKey ≠ "tile") (h2 : sortKey ≠ "date") :
    sortScenes scenes sortKey = [] := by
  unfold sortScenes
  rw [if_neg h1, if_neg h2]

theorem sortScenes_unknown_key_witness : sortScenes [sceneId] "by_date" = [] :=
  sortScenes_unknown_key [sceneId] "by_date" (by decide) (by decide)

end Sen2
